import Mathlib

/-!
Verification of the btscreener repository (src/btscreener/iex.py and
src/btscreener/collector.py) against its natural-language specification.

Modelling conventions used throughout this development:
  - Calendar dates (Python datetime values at midnight) are represented as
    Int day numbers in the proleptic Gregorian calendar (days since
    1970-01-01), computed by daysFromCivil below.  Adding a
    datetime.timedelta of n days is addition of n.
  - The runtime clock (datetime.today) is passed in explicitly as a
    today parameter.
  - Fallible Python code (code that can raise) is embedded as
    Except String results; a raised exception is an .error carrying the
    exception name.
  - pandas DataFrames built from a JSON list of records are embedded as
    Lean lists of record structures.  A DataFrame built from an empty
    record list has an empty column set, so selecting named columns from
    it raises KeyError; the embeddings of load_earnings and
    load_dividends reproduce that behaviour explicitly.
-/

/-- Gregorian civil date to day number with day 0 = 1970-01-01, following
the standard days-from-civil algorithm; with the floor semantics of Int
division used here, the era adjustment of the truncating version is not
needed.  This embeds the date arithmetic of Python datetime objects as
used by iex.py. -/
def daysFromCivil (y m d : Int) : Int :=
  let y2 := if m ≤ 2 then y - 1 else y
  let era := y2 / 400
  let yoe := y2 - era * 400
  let mp := (m + 9) % 12
  let doy := (153 * mp + 2) / 5 + d - 1
  let doe := yoe * 365 + yoe / 4 - yoe / 100 + doy
  era * 146097 + doe - 719468

/-- Numeric value of a decimal digit character, none for other characters. -/
def charDigitVal (c : Char) : Option Nat :=
  if 48 ≤ c.toNat ∧ c.toNat ≤ 57 then some (c.toNat - 48) else none

/-- Character for a decimal digit. -/
def digitChar (d : Nat) : Char :=
  Char.ofNat (48 + d)

/-- Parses a list of characters as decimal digits, most significant first. -/
def parseDigitsChars : List Char → Option (List Nat)
  | [] => some []
  | c :: cs =>
    match charDigitVal c, parseDigitsChars cs with
    | some d, some ds => some (d :: ds)
    | _, _ => none

/-- Parses a nonempty digit string as a natural number. -/
def parseNatChars (cs : List Char) : Option Nat :=
  if cs.isEmpty then none
  else
    match parseDigitsChars cs with
    | some ds => some (Nat.ofDigits 10 ds.reverse)
    | none => none

/-- Splits a character list on a separator character, like
str.split in Python. -/
def splitOnChar (sep : Char) : List Char → List (List Char)
  | [] => [[]]
  | c :: cs =>
    let r := splitOnChar sep cs
    if c = sep then
      [] :: r
    else
      match r with
      | [] => [[c]]
      | g :: gs => (c :: g) :: gs

/-- Embeds the parsedate lambda of iex.py line 49: strptime with format
Y-m-d, returning the date as a day number.  Returns none where strptime
would raise ValueError. -/
def parsedate (s : String) : Option Int :=
  match splitOnChar '-' s.data with
  | [ys, ms, ds] =>
    match parseNatChars ys, parseNatChars ms, parseNatChars ds with
    | some y, some m, some d =>
      if 1 ≤ m ∧ m ≤ 12 ∧ 1 ≤ d ∧ d ≤ 31 then
        some (daysFromCivil (y : Int) (m : Int) (d : Int))
      else none
    | _, _, _ => none
  | _ => none

/-- Embeds estimate_next of iex.py lines 63-80.  guesses is the list of
prev dates shifted by 365 days followed by the same dates shifted by 730
days; the result is the minimum of the guesses whose own 365-day shift
lies strictly after today, and none when that minimum does not exist
(the ValueError branch of the source). -/
def estimate_next (today : Int) (prev_dates : List Int) : Option Int :=
  let guesses := prev_dates.map (fun i => i + 365) ++ prev_dates.map (fun i => i + 730)
  (guesses.filter (fun i => decide (today < i + 365))).min?

/-- Reference Date Estimator transcribed from the words of the
specification (section 4.1 and section 8): form the candidate set
consisting of each input date shifted one year and two years (365 and
730 days), keep the candidates whose own one-year-later projection is
strictly after today, and return the earliest survivor, or no estimate
when no candidate survives or the input is empty. -/
def estimateNextRef (today : Int) (prev : List Int) : Option Int :=
  ((prev.flatMap (fun d => [d + 365, d + 730])).filter
    (fun c => decide (today < c + 365))).min?

theorem int_min?_eq_some_iff {a : Int} {xs : List Int} :
    xs.min? = some a ↔ a ∈ xs ∧ ∀ b ∈ xs, a ≤ b :=
  @List.min?_eq_some_iff Int a _ _ ⟨fun h h2 => le_antisymm h h2⟩
    (fun _ => le_refl _) (fun _ _ => min_choice _ _) (fun _ _ _ => le_min_iff) xs

theorem int_min?_perm {l1 l2 : List Int} (h : l1.Perm l2) : l1.min? = l2.min? := by
  cases hm : l1.min? with
  | none =>
    have h1 : l1 = [] := List.min?_eq_none_iff.mp hm
    subst h1
    have h2 : l2 = [] := h.symm.eq_nil
    subst h2
    rfl
  | some a =>
    have hm2 := int_min?_eq_some_iff.mp hm
    exact (int_min?_eq_some_iff.mpr
      ⟨h.mem_iff.mp hm2.1, fun b hb => hm2.2 b (h.mem_iff.mpr hb)⟩).symm

theorem map_append_perm_flatMap (f g : Int → Int) (l : List Int) :
    (l.map f ++ l.map g).Perm (l.flatMap fun d => [f d, g d]) := by
  induction l with
  | nil => rfl
  | cons a l ih =>
    simp only [List.map_cons, List.cons_append, List.flatMap_cons]
    exact List.Perm.cons (f a) (List.perm_middle.trans (List.Perm.cons (g a) ih))

/-- Claim C1: the Date Estimator is a total function equal to the
reference definition from the specification, and on input 2023-02-01
with today 2024-06-01 it returns 2024-02-01. -/
theorem claim_C1 :
    (∀ today prev_dates, estimate_next today prev_dates = estimateNextRef today prev_dates)
    ∧ estimate_next (daysFromCivil 2024 6 1) [daysFromCivil 2023 2 1]
        = some (daysFromCivil 2024 2 1) := by
  constructor
  · intro today prev_dates
    unfold estimate_next estimateNextRef
    exact int_min?_perm ((map_append_perm_flatMap _ _ _).filter _)
  · decide

/-- One record of the earnings array in the IEX earnings response
(iex.py line 114), with the two columns load_earnings parses; the
remaining numeric columns of the response do not participate in any
computation of the repository and are omitted. -/
structure EarningsRecord where
  EPSReportDate : String
  fiscalEndDate : String
deriving DecidableEq, Repr

/-- One record of the IEX dividends response (iex.py line 132). -/
structure DividendRecord where
  declaredDate : String
  exDate : String
  paymentDate : String
  recordDate : String
  amount : ℚ
deriving DecidableEq, Repr

/-- A normalized dividend row after load_dividends parses the four date
columns (iex.py lines 134-135). -/
structure DividendRow where
  declaredDate : Int
  exDate : Int
  paymentDate : Int
  recordDate : Int
  amount : ℚ
deriving DecidableEq, Repr

/-- Applies parsedate to the two date columns of every earnings record,
as the applymap call of iex.py lines 115-116 does; none when any cell
fails to parse (strptime ValueError). -/
def parseEarningsRows : List EarningsRecord → Option (List (Int × Int))
  | [] => some []
  | r :: rest =>
    match parsedate r.EPSReportDate, parsedate r.fiscalEndDate, parseEarningsRows rest with
    | some a, some b, some tl => some ((a, b) :: tl)
    | _, _, _ => none

/-- Applies parsedate to the four date columns of every dividend record,
as the applymap call of iex.py line 135 does. -/
def parseDividendRows : List DividendRecord → Option (List DividendRow)
  | [] => some []
  | r :: rest =>
    match parsedate r.declaredDate, parsedate r.exDate, parsedate r.paymentDate,
        parsedate r.recordDate, parseDividendRows rest with
    | some dd, some ed, some pd, some rd, some tl =>
      some (⟨dd, ed, pd, rd, r.amount⟩ :: tl)
    | _, _, _, _, _ => none

/-- Embeds load_earnings of iex.py lines 101-117.  The earnings frame is
the list of rows of the earnings array of the response, indexed by
EPSReportDate (the first component of each pair).  A pandas DataFrame
built from an empty record list has no columns, so the column selection
of line 115 raises KeyError there; a malformed date cell makes the
applymap of line 116 raise ValueError.  The function never returns an
absent value: it either produces a frame or raises. -/
def load_earnings (earningsResp : List EarningsRecord) : Except String (List (Int × Int)) :=
  if earningsResp.isEmpty then
    .error "KeyError: EPSReportDate"
  else
    match parseEarningsRows earningsResp with
    | some rows => .ok rows
    | none => .error "ValueError: time data does not match format"

/-- Embeds load_dividends of iex.py lines 119-138.  When the exDate
column is absent (with schema-complete records this is exactly the case
of an empty response frame) the function returns None (here: ok none),
line 138; otherwise it parses the four date columns and indexes by
exDate. -/
def load_dividends (dividendsResp : List DividendRecord) :
    Except String (Option (List DividendRow)) :=
  if dividendsResp.isEmpty then
    .ok none
  else
    match parseDividendRows dividendsResp with
    | some rows => .ok (some rows)
    | none => .error "ValueError: time data does not match format"

/-- CalendarSummary of the specification section 3: the fixed-schema
record built by load_calendar (iex.py lines 171-177). -/
structure CalendarSummary where
  lastEPSReportDate : Option Int
  nextEPSReportDate : Option Int
  lastExDate : Option Int
  lastDividend : Option ℚ
  nextExDate : Option Int
deriving DecidableEq, Repr

/-- Embeds load_calendar of iex.py lines 140-178.  Note that the branch
of line 158 (earnings is None) is dead code in the source: load_earnings
either returns a frame or raises, so a raised exception propagates here
and the None test is always true-branch; the Except bind reproduces
that.  The dividend branch of lines 162-165 computes next_exDate from
the earnings index, not the dividend index, exactly as the source does. -/
def load_calendar (today : Int) (earningsResp : List EarningsRecord)
    (dividendsResp : List DividendRecord) : Except String CalendarSummary :=
  match load_earnings earningsResp with
  | .error e => .error e
  | .ok earnings =>
    match load_dividends dividendsResp with
    | .error e => .error e
    | .ok dividends =>
      let epsDates := earnings.map Prod.fst
      let last_reportDate := epsDates.max?
      let next_reportDate := estimate_next today epsDates
      match dividends with
      | some divRows =>
        let exDates := divRows.map (fun r => r.exDate)
        let last_exDate := exDates.max?
        let last_dividend :=
          (divRows.find? (fun r => decide (some r.exDate = exDates.max?))).map
            (fun r => r.amount)
        let next_exDate := estimate_next today epsDates
        .ok ⟨last_reportDate, next_reportDate, last_exDate, last_dividend, next_exDate⟩
      | none =>
        .ok ⟨last_reportDate, next_reportDate, none, none, none⟩

/-- Claim C2: the claim says both Event Loaders signal absence rather
than raising on an empty or schema-deficient response.  The code
violates this for load_earnings: on a response with zero earnings
records the empty frame has no EPSReportDate column and the column
selection raises KeyError, while load_dividends does return the absence
value.  This theorem evaluates both loaders at the failing input. -/
theorem claim_C2_loader_behaviour :
    load_earnings [] = .error "KeyError: EPSReportDate"
    ∧ load_dividends [] = .ok none := by
  constructor <;> rfl

/-- Claim C3: the claim says that for a symbol with zero earnings records
and zero dividend records load_calendar returns the all-null
CalendarSummary without raising.  The code instead propagates the
KeyError that load_earnings raises on the empty earnings frame (the
None branch of iex.py line 158 that would produce the null fields is
dead code).  This theorem evaluates load_calendar at the failing input:
whatever the current day is, the call raises instead of returning a
summary. -/
theorem claim_C3_failing :
    ∀ today, load_calendar today [] [] = .error "KeyError: EPSReportDate" :=
  fun _ => rfl

theorem find?_eq_some_of_nodup_map {α β : Type} [DecidableEq β] (f : α → β)
    (m : Option β) :
    ∀ (l : List α) (r : α), (l.map f).Nodup → r ∈ l → some (f r) = m →
      l.find? (fun x => decide (some (f x) = m)) = some r := by
  intro l
  induction l with
  | nil => intro r _ hr; exact absurd hr (List.not_mem_nil r)
  | cons b l ih =>
    intro r hnd hr hm
    rw [List.map_cons, List.nodup_cons] at hnd
    by_cases hb : some (f b) = m
    · have hrb : r = b := by
        rcases List.mem_cons.mp hr with h | h
        · exact h
        · exfalso
          have hfrb : f r = f b := Option.some_injective _ (hm.trans hb.symm)
          exact hnd.1 (hfrb ▸ List.mem_map_of_mem f h)
      subst hrb
      simp [List.find?, hb]
    · have hrl : r ∈ l := by
        rcases List.mem_cons.mp hr with h | h
        · exact absurd (h ▸ hm) hb
        · exact h
      simp only [List.find?, decide_eq_false hb]
      exact ih r hnd.2 hrl hm

/-- Claim C4: with a non-empty dividend series, load_calendar sets
lastExDate to the maximum exDate, lastDividend to the amount recorded at
that exDate, and nextExDate to the Date Estimator applied to the
earnings report dates (the asymmetry of iex.py line 165); with the
dividend series absent, all three fields are null.  The pairwise
distinctness hypothesis on exDate reflects the unique frame index the
loc lookup of line 164 relies on. -/
theorem claim_C4 :
    ∀ today eResp dResp s edates rows r,
      load_calendar today eResp dResp = .ok s →
      load_earnings eResp = .ok edates →
      ((load_dividends dResp = .ok (some rows) →
        (rows.map (fun x => x.exDate)).Nodup →
        r ∈ rows →
        some r.exDate = (rows.map (fun x => x.exDate)).max? →
          s.lastExDate = (rows.map (fun x => x.exDate)).max?
          ∧ s.lastDividend = some r.amount
          ∧ s.nextExDate = estimate_next today (edates.map Prod.fst))
      ∧ (load_dividends dResp = .ok none →
          s.lastExDate = none ∧ s.lastDividend = none ∧ s.nextExDate = none)) := by
  intro today eResp dResp s edates rows r h he
  rw [load_calendar, he] at h
  constructor
  · intro hd hnd hr hm
    rw [hd] at h
    simp only [Except.ok.injEq] at h
    subst h
    refine ⟨rfl, ?_, rfl⟩
    show (rows.find? (fun x => decide (some x.exDate =
        (rows.map (fun x => x.exDate)).max?))).map (fun x => x.amount) = some r.amount
    rw [find?_eq_some_of_nodup_map (fun x => x.exDate) _ rows r hnd hr hm]
    rfl
  · intro hd
    rw [hd] at h
    simp only [Except.ok.injEq] at h
    subst h
    exact ⟨rfl, rfl, rfl⟩

/-- Concrete earnings response used to witness claim C4. -/
def calW_earningsResp : List EarningsRecord :=
  [⟨"2023-02-01", "2022-12-31"⟩]

/-- Concrete dividends response used to witness claim C4. -/
def calW_dividendsResp : List DividendRecord :=
  [⟨"2023-03-10", "2023-03-15", "2023-04-01", "2023-03-16", 63/100⟩]

/-- Parsed dividend row corresponding to calW_dividendsResp. -/
def calW_row : DividendRow :=
  ⟨daysFromCivil 2023 3 10, daysFromCivil 2023 3 15, daysFromCivil 2023 4 1,
   daysFromCivil 2023 3 16, 63/100⟩

/-- CalendarSummary that load_calendar produces on the witness data. -/
def calW_summary : CalendarSummary :=
  ⟨some (daysFromCivil 2023 2 1), some (daysFromCivil 2023 2 1 + 365),
   some (daysFromCivil 2023 3 15), some (63/100),
   some (daysFromCivil 2023 2 1 + 365)⟩

theorem claim_C4_witness :
    calW_summary.lastExDate = ([calW_row].map (fun x => x.exDate)).max?
    ∧ calW_summary.lastDividend = some calW_row.amount
    ∧ calW_summary.nextExDate = estimate_next (daysFromCivil 2024 6 1)
        ([(daysFromCivil 2023 2 1, daysFromCivil 2022 12 31)].map Prod.fst) :=
  (claim_C4 (daysFromCivil 2024 6 1) calW_earningsResp calW_dividendsResp
      calW_summary [(daysFromCivil 2023 2 1, daysFromCivil 2022 12 31)]
      [calW_row] calW_row rfl rfl).1
    rfl (by simp) (List.mem_singleton_self calW_row) rfl

/-- Claim C6 as stated is false on the code: the freshness filter of
estimate_next keeps every candidate whose 365-day shift is after today,
so a surviving candidate can lie far more than one day in the past.
With today 2024-06-01 and the single previous date 465 days before
today, the one-year candidate lies 100 days in the past, survives the
filter, and is returned, contradicting the claimed one-day bound. -/
theorem claim_C6_counterexample :
    estimate_next (daysFromCivil 2024 6 1) [daysFromCivil 2024 6 1 - 465]
      = some (daysFromCivil 2024 6 1 - 100)
    ∧ ¬ (daysFromCivil 2024 6 1 - 1 < daysFromCivil 2024 6 1 - 100) := by
  decide

/-- Claim C6 amended: for all non-empty input date sequences, a non-null
result of the Date Estimator is strictly greater than today minus a
365-day allowance (one year, not one day): the filter retains exactly
the candidates whose one-year-later projection is after today. -/
theorem claim_C6_amended :
    ∀ today prev_dates c, prev_dates ≠ [] →
      estimate_next today prev_dates = some c → today - 365 < c := by
  intro t p c _ h
  unfold estimate_next at h
  have hc := List.min?_mem (fun _ _ => min_choice _ _) h
  rw [List.mem_filter] at hc
  have := of_decide_eq_true hc.2
  omega

theorem claim_C6_amended_witness :
    daysFromCivil 2024 6 1 - 365 < daysFromCivil 2023 2 1 + 365 :=
  claim_C6_amended (daysFromCivil 2024 6 1) [daysFromCivil 2023 2 1]
    (daysFromCivil 2023 2 1 + 365) (by decide) (by decide)

/-- A cell of a collected row: a date, a number, or a null entry, the
value kinds a CalendarSummary or backtest stats series can hold. -/
inductive CellValue
  | date (d : Int)
  | num (q : ℚ)
  | missing
deriving DecidableEq, Repr

/-- A dict-like row of named cells, as yielded by generate_stats
(collector.py lines 110-120). -/
abbrev Row := List (String × CellValue)

/-- The five named entries of the calendar Series built at iex.py lines
171-177, in their OrderedDict order. -/
def calendarPairs (c : CalendarSummary) : Row :=
  [("lastEPSReportDate", (c.lastEPSReportDate.map CellValue.date).getD CellValue.missing),
   ("nextEPSReportDate", (c.nextEPSReportDate.map CellValue.date).getD CellValue.missing),
   ("lastExDate", (c.lastExDate.map CellValue.date).getD CellValue.missing),
   ("lastDividend", (c.lastDividend.map CellValue.num).getD CellValue.missing),
   ("nextExDate", (c.nextExDate.map CellValue.date).getD CellValue.missing)]

/-- The combined table run_collection builds: rows in the order they were
yielded, indexed by the symbol list passed to pd.DataFrame
(collector.py lines 124-126). -/
structure Table (R : Type) where
  index : List String
  rows : List R
deriving DecidableEq

/-- Loop body of generate_stats (collector.py lines 114-120) for one
symbol: load historical data, compute backtest stats on it, load the
calendar, and concatenate the two partial rows.  The historical loader
and the backtest collaborator are parameters, as is the per-symbol
content of the two remote event endpoints; any exception raised by a
step propagates. -/
def collect_one {H : Type} (load_historical : String → Except String H)
    (run_backtest : H → Row) (today : Int)
    (earningsOf : String → List EarningsRecord)
    (dividendsOf : String → List DividendRecord)
    (symbol : String) : Except String Row :=
  match load_historical symbol with
  | .error e => .error e
  | .ok hist =>
    let chart_stats := run_backtest hist
    match load_calendar today (earningsOf symbol) (dividendsOf symbol) with
    | .error e => .error e
    | .ok calendar_stats => .ok (chart_stats ++ calendarPairs calendar_stats)

/-- Embeds generate_stats (collector.py lines 101-120): the symbols are
processed strictly in order, each row is yielded before any work on the
next symbol, and an exception raised for one symbol propagates,
discarding the whole run. -/
def generate_stats {H : Type} (load_historical : String → Except String H)
    (run_backtest : H → Row) (today : Int)
    (earningsOf : String → List EarningsRecord)
    (dividendsOf : String → List DividendRecord) :
    List String → Except String (List Row)
  | [] => .ok []
  | symbol :: rest =>
    match collect_one load_historical run_backtest today earningsOf dividendsOf symbol with
    | .error e => .error e
    | .ok row =>
      match generate_stats load_historical run_backtest today earningsOf dividendsOf rest with
      | .error e => .error e
      | .ok rows => .ok (row :: rows)

/-- Embeds run_collection (collector.py lines 123-127): materialize the
generator into a table indexed by the symbol list as given. -/
def run_collection {H : Type} (load_historical : String → Except String H)
    (run_backtest : H → Row) (today : Int)
    (earningsOf : String → List EarningsRecord)
    (dividendsOf : String → List DividendRecord)
    (symbols : List String) : Except String (Table Row) :=
  match generate_stats load_historical run_backtest today earningsOf dividendsOf symbols with
  | .error e => .error e
  | .ok rows => .ok ⟨symbols, rows⟩

/-- Dow Jones component tickers (collector.py lines 41-44). -/
def dji_components : List String :=
  ["v", "xom", "wmt", "cat", "cvx", "aapl", "gs", "axp",
   "ibm", "mcd", "mmm", "jpm", "ba", "trv", "msft", "dwdp",
   "pg", "nke", "ko", "mrk", "dis", "csco", "intc", "jnj",
   "pfe", "unh", "hd", "wba", "vz", "utx"]

/-- Curated favourite tickers (collector.py lines 47-55). -/
def faves_components : List String :=
  ["aapl", "fb", "amzn", "goog", "nflx",
   "dis", "de", "mcd", "ibm", "cpb",
   "nvda", "amd", "mu", "intc",
   "bac", "usb", "brk.b",
   "x", "cat", "ba", "luv",
   "tsla", "snap", "twtr", "spot",
   "tlry", "cgc", "stz",
   "pfe"]

/-- Embeds load_symbol_list (collector.py lines 130-141) with the symbols
argument passed explicitly.  The Symbol column of the ranking table that
the sp branch loads is the spSymbols parameter.  The Python expression
list(set(symbols)) returns the distinct symbols in unspecified order; it
is modelled by List.dedup, which has the same members, no duplicates and
the same length. -/
def load_symbol_list (spSymbols : List String) (groups : List String)
    (symbols : List String) : Except String (List String) :=
  let symbols2 :=
    if "faves" ∈ groups then symbols ++ faves_components
    else if "dji" ∈ groups then symbols ++ dji_components
    else if "sp" ∈ groups then symbols ++ spSymbols
    else symbols
  if symbols2 = [] then .error "No symbols or groups provided"
  else .ok symbols2.dedup

/-- Embeds a call of load_symbol_list that omits the symbols argument.
The Python default value symbols=[] is a single list object created when
the def statement runs, and the augmented assignment of lines 132, 134
and 137 extends that object in place, so the accumulated contents
survive into later default-argument calls.  The state passed in and
returned is the current contents of the default list object. -/
def load_symbol_list_default (spSymbols : List String)
    (defaultSymbols : List String) (groups : List String) :
    Except String (List String) × List String :=
  let newDefault :=
    if "faves" ∈ groups then defaultSymbols ++ faves_components
    else if "dji" ∈ groups then defaultSymbols ++ dji_components
    else if "sp" ∈ groups then defaultSymbols ++ spSymbols
    else defaultSymbols
  (if newDefault = [] then .error "No symbols or groups provided"
   else .ok newDefault.dedup, newDefault)

/-- Embeds cmd_collect (collector.py lines 153-156): resolve the symbol
universe, then run the collection over it. -/
def cmd_collect {H : Type} (load_historical : String → Except String H)
    (run_backtest : H → Row) (today : Int)
    (earningsOf : String → List EarningsRecord)
    (dividendsOf : String → List DividendRecord)
    (spSymbols : List String) (groups : List String) (symbols : List String) :
    Except String (Table Row) :=
  match load_symbol_list spSymbols groups symbols with
  | .error e => .error e
  | .ok syms =>
    run_collection load_historical run_backtest today earningsOf dividendsOf syms

theorem generate_stats_ok_of_forall {H : Type} (lh : String → Except String H)
    (rb : H → Row) (today : Int) (eOf : String → List EarningsRecord)
    (dOf : String → List DividendRecord) :
    ∀ (syms : List String) (g : String → Row),
      (∀ s ∈ syms, collect_one lh rb today eOf dOf s = .ok (g s)) →
      generate_stats lh rb today eOf dOf syms = .ok (syms.map g) := by
  intro syms g
  induction syms with
  | nil => intro _; rfl
  | cons a rest ih =>
    intro h
    have ha := h a (List.mem_cons_self a rest)
    have hrest := ih (fun s hs => h s (List.mem_cons_of_mem a hs))
    simp [generate_stats, ha, hrest]

theorem generate_stats_error_append {H : Type} (lh : String → Except String H)
    (rb : H → Row) (today : Int) (eOf : String → List EarningsRecord)
    (dOf : String → List DividendRecord) :
    ∀ (pre : List String) (x : String) (post : List String) (e : String),
      (∀ s ∈ pre, ∃ r2, collect_one lh rb today eOf dOf s = .ok r2) →
      collect_one lh rb today eOf dOf x = .error e →
      generate_stats lh rb today eOf dOf (pre ++ x :: post) = .error e := by
  intro pre x post e
  induction pre with
  | nil => intro _ hx; simp [generate_stats, hx]
  | cons a rest ih =>
    intro h hx
    obtain ⟨r2, hr2⟩ := h a (List.mem_cons_self a rest)
    have htail := ih (fun s hs => h s (List.mem_cons_of_mem a hs)) hx
    simp [generate_stats, hr2, htail]

theorem generate_stats_ok_length {H : Type} (lh : String → Except String H)
    (rb : H → Row) (today : Int) (eOf : String → List EarningsRecord)
    (dOf : String → List DividendRecord) :
    ∀ (syms : List String) (rows : List Row),
      generate_stats lh rb today eOf dOf syms = .ok rows → rows.length = syms.length := by
  intro syms
  induction syms with
  | nil =>
    intro rows h
    simp only [generate_stats, Except.ok.injEq] at h
    subst h
    rfl
  | cons a rest ih =>
    intro rows h
    cases hco : collect_one lh rb today eOf dOf a with
    | error e =>
      simp only [generate_stats, hco] at h
      exact Except.noConfusion h
    | ok row =>
      cases hg : generate_stats lh rb today eOf dOf rest with
      | error e =>
        simp only [generate_stats, hco, hg] at h
        exact Except.noConfusion h
      | ok rows2 =>
        simp only [generate_stats, hco, hg, Except.ok.injEq] at h
        subst h
        simp [ih rows2 hg]

/-- Claim C7: the Collection Pipeline processes the symbols strictly
sequentially in their given order with no per-symbol isolation.  First
conjunct: when every symbol succeeds, the table holds one row per input
symbol, in input order, indexed by the input sequence.  Second conjunct:
when the per-symbol work succeeds on every symbol before x and fails on
x, the whole run aborts with that error and produces no table, whatever
symbols follow x (the symbols after x are never reached). -/
theorem claim_C7 :
    ∀ {H : Type} (lh : String → Except String H) (rb : H → Row) (today : Int)
      (eOf : String → List EarningsRecord) (dOf : String → List DividendRecord),
    (∀ syms g, (∀ s ∈ syms, collect_one lh rb today eOf dOf s = .ok (g s)) →
       run_collection lh rb today eOf dOf syms = .ok ⟨syms, syms.map g⟩)
    ∧ (∀ pre x post e,
       (∀ s ∈ pre, ∃ r2, collect_one lh rb today eOf dOf s = .ok r2) →
       collect_one lh rb today eOf dOf x = .error e →
       run_collection lh rb today eOf dOf (pre ++ x :: post) = .error e) := by
  intro H lh rb today eOf dOf
  constructor
  · intro syms g h
    simp [run_collection, generate_stats_ok_of_forall lh rb today eOf dOf syms g h]
  · intro pre x post e h hx
    simp [run_collection, generate_stats_error_append lh rb today eOf dOf pre x post e h hx]

/-- Historical loader used by the witness of claim C7: it fails on the
symbol bad and succeeds elsewhere. -/
def lhW7 : String → Except String Unit :=
  fun s => if s = "bad" then .error "boom" else .ok ()

/-- Backtest collaborator used by the witness of claim C7. -/
def rbW7 : Unit → Row := fun _ => []

/-- Earnings endpoint content used by the witness of claim C7. -/
def eOfW7 : String → List EarningsRecord := fun _ => [⟨"2023-02-01", "2022-12-31"⟩]

/-- Dividends endpoint content used by the witness of claim C7. -/
def dOfW7 : String → List DividendRecord := fun _ => []

/-- Row produced for every successful symbol under the claim C7 witness
collaborators. -/
def rowW7 : Row :=
  calendarPairs ⟨some (daysFromCivil 2023 2 1), some (daysFromCivil 2023 2 1 + 365),
    none, none, none⟩

theorem claim_C7_witness :
    run_collection lhW7 rbW7 (daysFromCivil 2024 6 1) eOfW7 dOfW7 ["aaa", "ccc"]
      = .ok ⟨["aaa", "ccc"], [rowW7, rowW7]⟩
    ∧ run_collection lhW7 rbW7 (daysFromCivil 2024 6 1) eOfW7 dOfW7 ["aaa", "bad", "ccc"]
      = .error "boom" := by
  constructor
  · exact (claim_C7 lhW7 rbW7 (daysFromCivil 2024 6 1) eOfW7 dOfW7).1
      ["aaa", "ccc"] (fun _ => rowW7) (by
        intro s hs
        rcases List.mem_cons.mp hs with h | h
        · subst h; rfl
        · rw [List.mem_singleton] at h; subst h; rfl)
  · exact (claim_C7 lhW7 rbW7 (daysFromCivil 2024 6 1) eOfW7 dOfW7).2
      ["aaa"] "bad" ["ccc"] "boom" (by
        intro s hs
        rw [List.mem_singleton] at hs
        subst hs
        exact ⟨rowW7, rfl⟩) rfl

/-- Claim C5: one row per distinct symbol.  The input symbol sequence of
the claim is the explicit symbol list handed to the pipeline entry point
(cmd_collect with no group selected, the path the spec notes as
deduplicating upstream of run_collection): whenever the collection
succeeds, the number of rows of the resulting table (and of its index)
equals the number of distinct symbols in the input sequence. -/
theorem claim_C5 :
    ∀ {H : Type} (lh : String → Except String H) (rb : H → Row) (today : Int)
      (eOf : String → List EarningsRecord) (dOf : String → List DividendRecord)
      (spSymbols symbols : List String) (t : Table Row),
      cmd_collect lh rb today eOf dOf spSymbols [] symbols = .ok t →
      t.rows.length = symbols.toFinset.card
      ∧ t.index.length = symbols.toFinset.card := by
  intro H lh rb today eOf dOf sp symbols t h
  rw [cmd_collect] at h
  by_cases hs : symbols = []
  · subst hs
    simp only [load_symbol_list] at h
    exact Except.noConfusion h
  · simp only [load_symbol_list, List.not_mem_nil, if_false, if_neg hs] at h
    rw [run_collection] at h
    cases hg : generate_stats lh rb today eOf dOf symbols.dedup with
    | error e =>
      rw [hg] at h
      exact Except.noConfusion h
    | ok rows =>
      rw [hg] at h
      simp only [Except.ok.injEq] at h
      subst h
      have hlen := generate_stats_ok_length lh rb today eOf dOf symbols.dedup rows hg
      constructor
      · rw [hlen, ← List.card_toFinset]
      · rw [← List.card_toFinset]

/-- Row produced for every symbol under the claim C5 witness
collaborators. -/
def rowW5 : Row :=
  calendarPairs ⟨some (daysFromCivil 2023 2 1), some (daysFromCivil 2023 2 1 + 365),
    none, none, none⟩

theorem claim_C5_witness :
    cmd_collect (fun _ => Except.ok ()) (fun _ => ([] : Row)) (daysFromCivil 2024 6 1)
      (fun _ => [⟨"2023-02-01", "2022-12-31"⟩]) (fun _ => []) [] []
      ["AAPL", "AAPL", "MSFT"] = .ok ⟨["AAPL", "MSFT"], [rowW5, rowW5]⟩
    ∧ (⟨["AAPL", "MSFT"], [rowW5, rowW5]⟩ : Table Row).rows.length
        = ["AAPL", "AAPL", "MSFT"].toFinset.card
    ∧ ["AAPL", "AAPL", "MSFT"].toFinset.card = 2 := by
  have h : cmd_collect (fun _ => Except.ok ()) (fun _ => ([] : Row)) (daysFromCivil 2024 6 1)
      (fun _ => [⟨"2023-02-01", "2022-12-31"⟩]) (fun _ => []) [] []
      ["AAPL", "AAPL", "MSFT"] = .ok ⟨["AAPL", "MSFT"], [rowW5, rowW5]⟩ := by rfl
  exact ⟨h, (claim_C5 (fun _ => Except.ok ()) (fun _ => ([] : Row)) (daysFromCivil 2024 6 1)
      (fun _ => [⟨"2023-02-01", "2022-12-31"⟩]) (fun _ => []) [] ["AAPL", "AAPL", "MSFT"]
      ⟨["AAPL", "MSFT"], [rowW5, rowW5]⟩ h).1, by decide⟩

/-- Claim C9: group selection in load_symbol_list is an exclusive
priority chain, not a union.  If faves is among the requested groups the
result is exactly the explicit symbols plus the faves components
whatever else groups contains and whatever the ranking table holds;
otherwise a dji request wins over sp; otherwise sp contributes.  In
every case at most one group contributes symbols. -/
theorem claim_C9 :
    ∀ (spSymbols groups symbols : List String),
      ("faves" ∈ groups →
        load_symbol_list spSymbols groups symbols
          = .ok ((symbols ++ faves_components).dedup))
      ∧ ("faves" ∉ groups → "dji" ∈ groups →
        load_symbol_list spSymbols groups symbols
          = .ok ((symbols ++ dji_components).dedup))
      ∧ ("faves" ∉ groups → "dji" ∉ groups → "sp" ∈ groups →
        symbols ++ spSymbols ≠ [] →
        load_symbol_list spSymbols groups symbols
          = .ok ((symbols ++ spSymbols).dedup)) := by
  intro sp groups symbols
  refine ⟨fun h1 => ?_, fun h1 h2 => ?_, fun h1 h2 h3 h4 => ?_⟩
  · rw [load_symbol_list]
    simp only [if_pos h1]
    rw [if_neg (by simp [faves_components])]
  · rw [load_symbol_list]
    simp only [if_neg h1, if_pos h2]
    rw [if_neg (by simp [dji_components])]
  · rw [load_symbol_list]
    simp only [if_neg h1, if_neg h2, if_pos h3]
    rw [if_neg h4]

theorem claim_C9_witness :
    load_symbol_list ["spy"] ["sp", "dji", "faves"] ["zzz"]
      = .ok ((["zzz"] ++ faves_components).dedup) :=
  (claim_C9 ["spy"] ["sp", "dji", "faves"] ["zzz"]).1 (by decide)

/-- Claim C10: load_symbol_list is not deterministic across calls when
the symbols argument is omitted.  The first conjunct reproduces the
scenario of the claim: after a default-argument call with groups faves
has accumulated the faves components into the shared default list, a
default-argument call with groups dji returns the union of the dji
components with those accumulated faves components.  The last conjunct
exhibits the non-determinism: the same call made from a fresh default
list returns a different set. -/
theorem claim_C10 :
    (load_symbol_list_default [] (load_symbol_list_default [] [] ["faves"]).2 ["dji"]).1
      = .ok ((faves_components ++ dji_components).dedup)
    ∧ (load_symbol_list_default [] [] ["dji"]).1 = .ok dji_components.dedup
    ∧ (load_symbol_list_default [] (load_symbol_list_default [] [] ["faves"]).2 ["dji"]).1
      ≠ (load_symbol_list_default [] [] ["dji"]).1 := by
  refine ⟨rfl, rfl, fun h => ?_⟩
  rw [show (load_symbol_list_default [] (load_symbol_list_default [] [] ["faves"]).2
        ["dji"]).1 = .ok ((faves_components ++ dji_components).dedup) from rfl,
      show (load_symbol_list_default [] [] ["dji"]).1 = .ok dji_components.dedup from rfl]
      at h
  simp only [Except.ok.injEq] at h
  exact absurd h (by decide)

/-- A decimal numeral: sign, mantissa and number of fractional digits,
denoting plus or minus mant divided by ten to the scale.  This is the
value domain of the numeric cells of the parsed ranking table (the
Weight, Price and Change columns of collector.py lines 92-94): pandas
round-trips a float column through to_csv and read_csv via its shortest
decimal representation, so the cache round trip of the table is the
round trip of these decimal numerals through their text form. -/
structure Decimal where
  neg : Bool
  mant : Nat
  scale : Nat
deriving DecidableEq, Repr

/-- Little-endian digit expansion with exactly k digits (leading zeros
kept), used for the zero-padded fractional part of a decimal cell. -/
def padDigits : Nat → Nat → List Nat
  | 0, _ => []
  | k + 1, n => n % 10 :: padDigits k (n / 10)

/-- Text of a natural number, most significant digit first. -/
def natToChars (n : Nat) : List Char :=
  if n = 0 then ['0'] else (Nat.digits 10 n).reverse.map digitChar

/-- Text of the fractional part: exactly scale digits, zero padded. -/
def fracChars (scale fp : Nat) : List Char :=
  (padDigits scale fp).reverse.map digitChar

/-- Text of a decimal cell as to_csv writes it: optional minus sign,
integer part, dot, zero-padded fractional part. -/
def serializeDecimal (d : Decimal) : List Char :=
  (if d.neg then ['-'] else [])
    ++ natToChars (d.mant / 10 ^ d.scale) ++ '.' :: fracChars d.scale (d.mant % 10 ^ d.scale)

/-- Splits a cell text at the first dot: characters before it, and the
characters after it when a dot is present. -/
def splitAtDot : List Char → List Char × Option (List Char)
  | [] => ([], none)
  | c :: cs =>
    if c = '.' then ([], some cs)
    else
      let r := splitAtDot cs
      (c :: r.1, r.2)

/-- Parses an unsigned decimal cell into mantissa and scale, as read_csv
parses a numeric column entry. -/
def parseDecimalBody (cs : List Char) : Option (Nat × Nat) :=
  match splitAtDot cs with
  | (_, none) => none
  | (ipCs, some fracCs) =>
    match parseNatChars ipCs, parseDigitsChars fracCs with
    | some ip, some fds =>
      some (ip * 10 ^ fracCs.length + Nat.ofDigits 10 fds.reverse, fracCs.length)
    | _, _ => none

/-- Parses a decimal cell with optional leading minus sign. -/
def parseDecimal : List Char → Option Decimal
  | [] => none
  | c :: cs =>
    if c = '-' then (parseDecimalBody cs).map (fun p => ⟨true, p.1, p.2⟩)
    else (parseDecimalBody (c :: cs)).map (fun p => ⟨false, p.1, p.2⟩)

/-- One row of the parsed ranking table of load_sp500_weights
(collector.py lines 88-94), restricted to the four columns the
round-trip claim speaks about. -/
structure WeightRow where
  symbol : String
  weight : Decimal
  price : Decimal
  change : Decimal
deriving DecidableEq, Repr

/-- Header line that df.to_csv writes for the parsed ranking table: the
unnamed index column followed by the four column names. -/
def sp500_cache_header : List String :=
  ["", "Symbol", "Weight", "Price", "Change"]

/-- Cells of one data line of the cache file: the positional index that
to_csv writes first, then the four column values. -/
def writeRowCells (i : Nat) (r : WeightRow) : List String :=
  [String.mk (natToChars i), r.symbol, String.mk (serializeDecimal r.weight),
   String.mk (serializeDecimal r.price), String.mk (serializeDecimal r.change)]

/-- Embeds the cache write df.to_csv of collector.py line 95 at the
level of the delimited structure: the file is the header line followed
by one line of cells per table row, each line led by the row index. -/
def sp500_to_csv (rows : List WeightRow) : List (List String) :=
  sp500_cache_header :: (rows.enum.map fun p => writeRowCells p.1 p.2)

/-- Parses one data line back into a row, ignoring the index cell, as
pd.read_csv materializes a data line of the cache. -/
def readRowCells : List String → Option WeightRow
  | [_, s, w, p, c] =>
    match parseDecimal w.data, parseDecimal p.data, parseDecimal c.data with
    | some w2, some p2, some c2 => some ⟨s, w2, p2, c2⟩
    | _, _, _ => none
  | _ => none

/-- Parses the data lines of the cache file in order. -/
def readRows : List (List String) → Option (List WeightRow)
  | [] => some []
  | line :: rest =>
    match readRowCells line, readRows rest with
    | some r, some rs => some (r :: rs)
    | _, _ => none

/-- Embeds the cache read pd.read_csv of collector.py line 81 at the
level of the delimited structure: the header line must be the one the
writer produces, and every following line yields one row. -/
def sp500_read_csv : List (List String) → Option (List WeightRow)
  | [] => none
  | header :: rest =>
    if header = sp500_cache_header then readRows rest else none

theorem charDigitVal_digitChar : ∀ d < 10, charDigitVal (digitChar d) = some d := by
  decide

theorem digitChar_ne_dot_dash : ∀ d < 10, digitChar d ≠ '.' ∧ digitChar d ≠ '-' := by
  decide

theorem parseDigitsChars_map_digitChar :
    ∀ ds : List Nat, (∀ d ∈ ds, d < 10) →
      parseDigitsChars (ds.map digitChar) = some ds := by
  intro ds
  induction ds with
  | nil => intro _; rfl
  | cons d ds ih =>
    intro h
    have hd := charDigitVal_digitChar d (h d (List.mem_cons_self d ds))
    have hds := ih (fun x hx => h x (List.mem_cons_of_mem d hx))
    simp [parseDigitsChars, hd, hds]

theorem padDigits_lt : ∀ k n, ∀ d ∈ padDigits k n, d < 10 := by
  intro k
  induction k with
  | zero => intro n d hd; exact absurd hd (List.not_mem_nil d)
  | succ k ih =>
    intro n d hd
    rcases List.mem_cons.mp hd with h | h
    · subst h; exact Nat.mod_lt n (by norm_num)
    · exact ih (n / 10) d h

theorem padDigits_length : ∀ k n, (padDigits k n).length = k := by
  intro k
  induction k with
  | zero => intro n; rfl
  | succ k ih => intro n; simp [padDigits, ih]

theorem ofDigits_padDigits : ∀ k n, Nat.ofDigits 10 (padDigits k n) = n % 10 ^ k := by
  intro k
  induction k with
  | zero => intro n; simp [padDigits, Nat.ofDigits, Nat.mod_one]
  | succ k ih =>
    intro n
    rw [padDigits, Nat.ofDigits_cons, ih (n / 10), pow_succ, mul_comm (10 ^ k) 10,
      Nat.mod_mul]

theorem natToChars_mem : ∀ n, ∀ c ∈ natToChars n, c ≠ '.' ∧ c ≠ '-' := by
  intro n c hc
  rw [natToChars] at hc
  by_cases h : n = 0
  · rw [if_pos h] at hc
    rw [List.mem_singleton] at hc
    subst hc
    exact ⟨by decide, by decide⟩
  · rw [if_neg h] at hc
    obtain ⟨d, hd, hdc⟩ := List.mem_map.mp hc
    have hlt : d < 10 := Nat.digits_lt_base (by norm_num) (List.mem_reverse.mp hd)
    subst hdc
    exact digitChar_ne_dot_dash d hlt

theorem natToChars_ne_nil : ∀ n, natToChars n ≠ [] := by
  intro n
  rw [natToChars]
  by_cases h : n = 0
  · rw [if_pos h]; simp
  · rw [if_neg h]
    simp only [ne_eq, List.map_eq_nil_iff, List.reverse_eq_nil_iff]
    exact Nat.digits_ne_nil_iff_ne_zero.mpr h

theorem parseNatChars_natToChars : ∀ n, parseNatChars (natToChars n) = some n := by
  intro n
  by_cases h : n = 0
  · subst h; decide
  · rw [natToChars, if_neg h, parseNatChars]
    rw [if_neg (by
      simp only [List.isEmpty_iff, List.map_eq_nil_iff, List.reverse_eq_nil_iff]
      exact Nat.digits_ne_nil_iff_ne_zero.mpr h)]
    simp only [parseDigitsChars_map_digitChar (Nat.digits 10 n).reverse
        (fun d hd => Nat.digits_lt_base (by norm_num) (List.mem_reverse.mp hd)),
      List.reverse_reverse, Nat.ofDigits_digits]

theorem splitAtDot_append :
    ∀ xs ys : List Char, (∀ c ∈ xs, c ≠ '.') →
      splitAtDot (xs ++ '.' :: ys) = (xs, some ys) := by
  intro xs ys
  induction xs with
  | nil => intro _; simp [splitAtDot]
  | cons c cs ih =>
    intro h
    have hc : c ≠ '.' := h c (List.mem_cons_self c cs)
    have := ih (fun x hx => h x (List.mem_cons_of_mem c hx))
    simp [splitAtDot, hc, this]

theorem parseDecimalBody_serialize :
    ∀ m s : Nat,
      parseDecimalBody (natToChars (m / 10 ^ s) ++ '.' :: fracChars s (m % 10 ^ s))
        = some (m, s) := by
  intro m s
  rw [parseDecimalBody,
    splitAtDot_append _ _ (fun c hc => (natToChars_mem _ c hc).1)]
  have hfrac : parseDigitsChars (fracChars s (m % 10 ^ s))
      = some (padDigits s (m % 10 ^ s)).reverse :=
    parseDigitsChars_map_digitChar (padDigits s (m % 10 ^ s)).reverse
      (fun d hd => padDigits_lt s _ d (List.mem_reverse.mp hd))
  simp only [parseNatChars_natToChars, hfrac, List.reverse_reverse]
  rw [show (fracChars s (m % 10 ^ s)).length = s by
    simp [fracChars, padDigits_length]]
  rw [ofDigits_padDigits]
  have hlt : m % 10 ^ s < 10 ^ s := Nat.mod_lt m (Nat.pos_pow_of_pos s (by norm_num))
  rw [Nat.mod_eq_of_lt hlt]
  rw [mul_comm (m / 10 ^ s) (10 ^ s), Nat.div_add_mod m (10 ^ s)]

theorem parseDecimal_serializeDecimal :
    ∀ d : Decimal, parseDecimal (serializeDecimal d) = some d := by
  intro d
  obtain ⟨ng, m, s⟩ := d
  cases ng with
  | true =>
    show parseDecimal ('-' :: (natToChars (m / 10 ^ s) ++ '.' :: fracChars s (m % 10 ^ s)))
      = some ⟨true, m, s⟩
    rw [parseDecimal]
    rw [if_pos rfl, parseDecimalBody_serialize]
    rfl
  | false =>
    show parseDecimal (natToChars (m / 10 ^ s) ++ '.' :: fracChars s (m % 10 ^ s))
      = some ⟨false, m, s⟩
    obtain ⟨c, cs, hcs⟩ := List.exists_cons_of_ne_nil (natToChars_ne_nil (m / 10 ^ s))
    have hc : c ≠ '-' :=
      (natToChars_mem _ c (hcs ▸ List.mem_cons_self c cs)).2
    rw [hcs, List.cons_append, parseDecimal, if_neg hc, ← List.cons_append, ← hcs,
      parseDecimalBody_serialize]
    rfl

theorem readRowCells_writeRowCells :
    ∀ (i : Nat) (r : WeightRow), readRowCells (writeRowCells i r) = some r := by
  intro i r
  obtain ⟨s, w, p, c⟩ := r
  show (match parseDecimal (serializeDecimal w), parseDecimal (serializeDecimal p),
      parseDecimal (serializeDecimal c) with
    | some w2, some p2, some c2 => some (⟨s, w2, p2, c2⟩ : WeightRow)
    | _, _, _ => none) = some ⟨s, w, p, c⟩
  simp only [parseDecimal_serializeDecimal]

theorem readRows_writeRows :
    ∀ (rows : List WeightRow) (n : Nat),
      readRows ((List.enumFrom n rows).map fun p => writeRowCells p.1 p.2) = some rows := by
  intro rows
  induction rows with
  | nil => intro n; rfl
  | cons r rest ih =>
    intro n
    simp only [List.enumFrom, List.map_cons]
    rw [readRows, readRowCells_writeRowCells, ih (n + 1)]

/-- Claim C8: round trip of the ranking-table cache.  Writing any parsed
ranking table to the structured cache file and reading it back yields
the table unchanged: row for row, the Symbol, Weight, Price and Change
values are identical. -/
theorem claim_C8 :
    ∀ rows : List WeightRow, sp500_read_csv (sp500_to_csv rows) = some rows := by
  intro rows
  rw [sp500_to_csv, sp500_read_csv, if_pos rfl]
  exact readRows_writeRows rows 0
